import Mathlib

/-!
Verification of the session/cache consistency layer of the discordai
repository against its specification.

The Python sources are shallowly embedded as pure Lean functions:
* `src/services/cache_service.py` (`ResponseCache`),
* `src/services/redis_utils.py` (`RedisClient` and the module-level
  `RedisAlertState.consecutive_failures` counter),
* the deduplication gate of `src/discord_bot.py` (`on_message`),
* the durable store of `src/models.py` + `src/crud.py`,
* `src/services/conversation_service.py` (`ConversationContextManager`).

Modelling conventions:
* Python dicts and the Redis keyspace are insertion-ordered association
  lists (`dictGet`/`dictSet`/`dictErase` below mirror `d[k]`, `d[k] = v`,
  `del d[k]`).
* Wall-clock times (`time.time()`, `datetime.now(timezone.utc)`) are
  integer seconds, passed explicitly as a `now` argument.
* Redis per-key TTLs are not part of the time model: every claim under
  scrutiny concerns behaviour strictly inside the TTL windows, so the
  `expire_seconds` arguments are carried only for signature fidelity.
* The fast store is either `healthy` (every attempted operation succeeds,
  as a single Redis instance seen through one connection) or not
  (every attempt raises), which is the granularity the claims need.
-/

namespace DiscordAI

/-! ## Python dict / Redis keyspace primitives -/

/-- `d.get(k)` / `d[k]` on an insertion-ordered association list. -/
def dictGet {α : Type} : List (String × α) → String → Option α
  | [], _ => none
  | (k2, v) :: rest, k => if k2 = k then some v else dictGet rest k

/-- `d[k] = v`: replace in place when the key exists, append otherwise. -/
def dictSet {α : Type} : List (String × α) → String → α → List (String × α)
  | [], k, v => [(k, v)]
  | (k2, v2) :: rest, k, v =>
      if k2 = k then (k, v) :: rest else (k2, v2) :: dictSet rest k v

/-- `del d[k]` (keys are unique in every state built by the operations,
so removing every occurrence coincides with removing the one binding). -/
def dictErase {α : Type} (l : List (String × α)) (k : String) : List (String × α) :=
  l.filter (fun p => decide (p.1 ≠ k))

theorem dictGet_dictSet_self {α : Type} (l : List (String × α)) (k : String) (v : α) :
    dictGet (dictSet l k v) k = some v := by
  induction l with
  | nil => simp [dictSet, dictGet]
  | cons p rest ih =>
      by_cases h : p.1 = k
      · simp [dictSet, dictGet, h]
      · simp [dictSet, dictGet, h, ih]

theorem dictGet_dictErase_self {α : Type} (l : List (String × α)) (k : String) :
    dictGet (dictErase l k) k = none := by
  induction l with
  | nil => simp [dictErase, dictGet]
  | cons p rest ih =>
      by_cases h : p.1 = k
      · simpa [dictErase, dictGet, h] using ih
      · simpa [dictErase, dictGet, h] using ih

theorem length_dictSet_of_mem {α : Type} (l : List (String × α)) (k : String) (v : α)
    (h : dictGet l k ≠ none) : (dictSet l k v).length = l.length := by
  induction l with
  | nil => simp [dictGet] at h
  | cons p rest ih =>
      by_cases hk : p.1 = k
      · simp [dictSet, hk]
      · simp [dictGet, hk] at h
        simp [dictSet, hk, ih h]

theorem length_dictErase_of_mem {α : Type} (l : List (String × α)) (k : String) (e : α)
    (hmem : (k, e) ∈ l) (hnodup : (l.map Prod.fst).Nodup) :
    (dictErase l k).length + 1 = l.length := by
  induction l with
  | nil => cases hmem
  | cons p rest ih =>
      obtain ⟨pk, pv⟩ := p
      simp only [List.map_cons, List.nodup_cons] at hnodup
      rcases List.mem_cons.mp hmem with h | h
      · cases h
        have hfix : dictErase rest k = rest := by
          apply List.filter_eq_self.mpr
          intro q hq
          simp only [decide_eq_true_eq]
          intro hqk
          have hmm : q.1 ∈ rest.map Prod.fst := List.mem_map_of_mem Prod.fst hq
          rw [hqk] at hmm
          exact hnodup.1 hmm
        have hdrop : dictErase ((k, e) :: rest) k = dictErase rest k := by
          simp [dictErase, List.filter_cons]
        rw [hdrop, hfix]
        simp
      · have hmemk : k ∈ rest.map Prod.fst := List.mem_map_of_mem Prod.fst h
        have hk : pk ≠ k := fun hpk => hnodup.1 (hpk ▸ hmemk)
        have hstep : dictErase ((pk, pv) :: rest) k = (pk, pv) :: dictErase rest k := by
          simp [dictErase, List.filter_cons, hk]
        rw [hstep]
        simp only [List.length_cons]
        rw [ih h hnodup.2]

/-! ## ResponseCache (src/services/cache_service.py)

One entry is the Python tuple `(response, timestamp, access_count)`.
`_generate_key` lower-cases and strips the message and prefixes the
intent; the final md5 hex digest only shortens the key and is assumed
injective on the inputs in play, so the key base itself serves as key.
`.lower()` / `.strip()` are embedded character-wise (Python semantics on
the code points that occur here). -/

def pyLower (s : String) : String := ⟨s.data.map Char.toLower⟩

def pyStrip (s : String) : String :=
  ⟨((s.data.dropWhile Char.isWhitespace).reverse.dropWhile Char.isWhitespace).reverse⟩

/-- `ResponseCache._generate_key` (cache_service.py:43-64). -/
def generateKey (userMessage : String) (intent : Option String) : String :=
  let normalized := pyStrip (pyLower userMessage)
  match intent with
  | some i => i ++ ":" ++ normalized
  | none => normalized

structure CacheEntry where
  response : String
  timestamp : Int
  accessCount : Nat
deriving DecidableEq

structure ResponseCache where
  cache : List (String × CacheEntry)
  ttl : Int
  maxSize : Nat
  hits : Nat
  misses : Nat
  evictions : Nat
deriving DecidableEq

/-- `ResponseCache.__init__` defaults (cache_service.py:25-41). -/
def ResponseCache.init : ResponseCache :=
  { cache := [], ttl := 300, maxSize := 1000, hits := 0, misses := 0, evictions := 0 }

/-- The `(access_count, timestamp)` sort key used by `_evict_lru`. -/
def entryPair (e : CacheEntry) : Nat × Int := (e.accessCount, e.timestamp)

/-- Strict lexicographic comparison, the order in which Python compares
the `(access_count, timestamp)` tuples. -/
def pairLt (a b : Nat × Int) : Bool :=
  a.1 < b.1 || (a.1 == b.1 && a.2 < b.2)

def pairLe (a b : Nat × Int) : Prop :=
  a.1 < b.1 ∨ (a.1 = b.1 ∧ a.2 ≤ b.2)

/-- Python's `min(keys, key=...)`: first strictly-smaller element wins,
ties keep the earlier one. -/
def minLruKey : (String × CacheEntry) → List (String × CacheEntry) → String
  | best, [] => best.1
  | best, p :: ps =>
      if pairLt (entryPair p.2) (entryPair best.2) then minLruKey p ps else minLruKey best ps

/-- `ResponseCache._evict_lru` (cache_service.py:118-133). -/
def ResponseCache.evictLru (c : ResponseCache) : ResponseCache :=
  match c.cache with
  | [] => c
  | p :: ps =>
      { c with cache := dictErase c.cache (minLruKey p ps), evictions := c.evictions + 1 }

/-- `ResponseCache.get` (cache_service.py:66-96); `now` is `time.time()`. -/
def ResponseCache.get (c : ResponseCache) (now : Int) (userMessage : String)
    (intent : Option String) : Option String × ResponseCache :=
  let key := generateKey userMessage intent
  match dictGet c.cache key with
  | none => (none, { c with misses := c.misses + 1 })
  | some e =>
      if c.ttl < now - e.timestamp then
        (none, { c with cache := dictErase c.cache key, misses := c.misses + 1 })
      else
        (some e.response,
          { c with cache := dictSet c.cache key { e with accessCount := e.accessCount + 1 },
                   hits := c.hits + 1 })

/-- `ResponseCache.set` (cache_service.py:98-116): evict when already at
capacity, then store `(response, now, 1)` under the generated key. -/
def ResponseCache.set (c : ResponseCache) (now : Int) (userMessage response : String)
    (intent : Option String) : ResponseCache :=
  let c1 := if c.maxSize ≤ c.cache.length then c.evictLru else c
  { c1 with cache := dictSet c1.cache (generateKey userMessage intent) ⟨response, now, 1⟩ }

/-! ## RedisClient (src/services/redis_utils.py)

Redis stores strings. The session message cache stores `str(list)` and
parses it back with `ast.literal_eval`, a round trip, so `RVal` carries
the parsed list directly and an ordinary string otherwise.
`RedisAlertState.consecutive_failures` (module-level) and the count of
`logger.critical` emissions are threaded through `RedisState`. -/

structure CachedMsg where
  id : Option Nat
  role : String
  content : String
  intent : Option String
  confidence : Option ℚ
  createdAt : Option Int
deriving DecidableEq

inductive RVal where
  | str : String → RVal
  | msgs : List CachedMsg → RVal
deriving DecidableEq

structure RedisState where
  store : List (String × RVal)
  enabled : Bool
  healthy : Bool
  consecutiveFailures : Nat
  criticalAlerts : Nat
deriving DecidableEq

def REDIS_MAX_RETRIES : Nat := 3

def REDIS_ALERT_THRESHOLD : Nat := 5

/-- The per-attempt bookkeeping of `RedisClient._retry` (redis_utils.py:49-66)
over `n` failing attempts: each attempt increments the consecutive-failure
counter, and any attempt whose incremented counter reaches the alert
threshold emits a critical-severity log. -/
def retryFailures (st : RedisState) : Nat → RedisState
  | 0 => st
  | n + 1 =>
      let c := st.consecutiveFailures + 1
      let a := if REDIS_ALERT_THRESHOLD ≤ c then st.criticalAlerts + 1 else st.criticalAlerts
      retryFailures { st with consecutiveFailures := c, criticalAlerts := a } n

/-- `RedisClient.set_if_not_exists` (redis_utils.py:85-100): Redis `SET NX`
returns nil when the key exists; the fallback after exhausted retries
returns `True`; the counter is reset exactly when the final result `is True`. -/
def RedisState.setIfNotExists (st : RedisState) (key : String) (value : RVal)
    (_expireSeconds : Nat := 3600) : Bool × RedisState :=
  if st.enabled = false then (true, st)
  else if st.healthy then
    match dictGet st.store key with
    | some _ => (false, st)
    | none =>
        (true, { st with store := dictSet st.store key value, consecutiveFailures := 0 })
  else
    (true, { retryFailures st REDIS_MAX_RETRIES with consecutiveFailures := 0 })

/-- `RedisClient.exists` (redis_utils.py:102-112): the counter is reset only
when the (integer) result is truthy, i.e. the key was found. -/
def RedisState.existsKey (st : RedisState) (key : String) : Bool × RedisState :=
  if st.enabled = false then (false, st)
  else if st.healthy then
    match dictGet st.store key with
    | some _ => (true, { st with consecutiveFailures := 0 })
    | none => (false, st)
  else
    (false, retryFailures st REDIS_MAX_RETRIES)

/-- `RedisClient.set` (redis_utils.py:114-124): always reports `True`; the
non-None result (Redis `OK`, or the fallback's `True`) resets the counter. -/
def RedisState.set (st : RedisState) (key : String) (value : RVal)
    (_expireSeconds : Nat := 3600) : Bool × RedisState :=
  if st.enabled = false then (true, st)
  else if st.healthy then
    (true, { st with store := dictSet st.store key value, consecutiveFailures := 0 })
  else
    (true, { retryFailures st REDIS_MAX_RETRIES with consecutiveFailures := 0 })

/-- `RedisClient.get` (redis_utils.py:126-136): the counter is reset only
when the result is not None — a successful read of an absent key, like an
exhausted retry loop (fallback None), leaves it untouched. -/
def RedisState.get (st : RedisState) (key : String) : Option RVal × RedisState :=
  if st.enabled = false then (none, st)
  else if st.healthy then
    match dictGet st.store key with
    | some v => (some v, { st with consecutiveFailures := 0 })
    | none => (none, st)
  else
    (none, retryFailures st REDIS_MAX_RETRIES)

/-- `RedisClient.delete` (redis_utils.py:138-148): always reports `True`;
the non-None result (Redis deletion count, or the fallback's `True`)
resets the counter. -/
def RedisState.delete (st : RedisState) (key : String) : Bool × RedisState :=
  if st.enabled = false then (true, st)
  else if st.healthy then
    (true, { st with store := dictErase st.store key, consecutiveFailures := 0 })
  else
    (true, { retryFailures st REDIS_MAX_RETRIES with consecutiveFailures := 0 })

/-! ## Deduplication gate (src/discord_bot.py:161-190) -/

def dedupKey (msgId : String) : String := "dedup:msg:" ++ msgId

/-- The acquire step of `on_message`: `set_if_not_exists(dedup_key, "1", 600)`. -/
def dedupAcquire (st : RedisState) (msgId : String) : Bool × RedisState :=
  st.setIfNotExists (dedupKey msgId) (RVal.str "1") 600

/-- The release step in the `finally` block: `delete(dedup_key)`. -/
def dedupRelease (st : RedisState) (msgId : String) : Bool × RedisState :=
  st.delete (dedupKey msgId)

/-! ## Durable store (src/models.py, src/crud.py)

`conversation_sessions` (models.py:38-48) declares a primary key on `id`
and a plain (non-unique) index on `user_id`; there is no constraint over
`(user_id, status)`. `conversation_history` assigns integer primary keys
in insertion order and timestamps rows at creation. -/

structure SessionRec where
  id : String
  userId : String
  startedAt : Int
  lastActive : Option Int
  messageCount : Nat
  status : String
deriving DecidableEq

structure HistRow where
  id : Nat
  sessionId : String
  userId : String
  message : String
  role : String
  intent : Option String
  confidence : Option ℚ
  createdAt : Int
deriving DecidableEq

structure Database where
  sessions : List SessionRec
  history : List HistRow
  nextMessageId : Nat
deriving DecidableEq

/-- `crud.get_conversation_session` (crud.py:259-275): lookup by primary key. -/
def getConversationSession (db : Database) (sessionId : String) : Option SessionRec :=
  db.sessions.find? (fun s => s.id == sessionId)

/-- Stable insertion into an ascending run: the element goes before the
first entry it does not come after, so equal keys keep their input order. -/
def insertAsc {α : Type} (le : α → α → Bool) (x : α) : List α → List α
  | [] => [x]
  | y :: ys => if le x y then x :: y :: ys else y :: insertAsc le x ys

/-- Stable sort by the boolean relation `le` (ascending). -/
def sortByAsc {α : Type} (le : α → α → Bool) : List α → List α
  | [] => []
  | x :: xs => insertAsc le x (sortByAsc le xs)

/-- Comparison realising `ORDER BY last_active DESC` (PostgreSQL sorts
NULLs first on a descending key). -/
def lastActiveDescLe (a b : SessionRec) : Bool :=
  match a.lastActive, b.lastActive with
  | none, _ => true
  | some _, none => false
  | some x, some y => y ≤ x

/-- `crud.get_active_session_for_user` (crud.py:278-302): the user's
`status = "active"` rows ordered by `last_active` descending, first row. -/
def getActiveSessionForUser (db : Database) (userId : String) : Option SessionRec :=
  (sortByAsc lastActiveDescLe
    (db.sessions.filter (fun s => s.userId == userId && s.status == "active"))).head?

/-- Row produced by `crud.create_conversation_session` (crud.py:240-256)
with the column defaults of models.py:38-48: fresh UUID primary key,
`started_at`/`last_active` set to the current time by the server,
`message_count = 0`, `status = "active"`. -/
def newSessionRec (userId sessionId : String) (now : Int) : SessionRec :=
  { id := sessionId, userId := userId, startedAt := now,
    lastActive := some now, messageCount := 0, status := "active" }

/-- The only integrity constraint `conversation_sessions` declares is the
primary key on `id` (models.py:38-48); an insert fails exactly when the
new row duplicates an existing primary key. -/
def sessionInsertViolatesSchema (db : Database) (rec : SessionRec) : Bool :=
  db.sessions.any (fun s => s.id == rec.id)

/-- `crud.create_conversation_session`: unconditional insert of the new row. -/
def createConversationSession (db : Database) (userId sessionId : String)
    (now : Int) : Database :=
  { db with sessions := db.sessions ++ [newSessionRec userId sessionId now] }

/-- `crud.end_conversation_session` (crud.py:331-347): set `status` to
`"ended"` on the addressed row. -/
def endConversationSession (db : Database) (sessionId : String) : Database :=
  { db with sessions :=
      db.sessions.map (fun s => if s.id == sessionId then { s with status := "ended" } else s) }

/-- `crud.update_session_activity` (crud.py:305-328): bump `message_count`
and refresh `last_active`. -/
def updateSessionActivity (db : Database) (sessionId : String) (inc : Nat)
    (now : Int) : Database :=
  { db with sessions :=
      db.sessions.map (fun s =>
        if s.id == sessionId then
          { s with messageCount := s.messageCount + inc, lastActive := some now }
        else s) }

/-- `crud.create_conversation_message` (crud.py:351-377): append a history
row with the next autoincrement id and a creation timestamp. -/
def createConversationMessage (db : Database) (sessionId userId message role : String)
    (intent : Option String) (confidence : Option ℚ) (now : Int) : Database :=
  { db with
      history := db.history ++
        [{ id := db.nextMessageId, sessionId := sessionId, userId := userId,
           message := message, role := role, intent := intent,
           confidence := confidence, createdAt := now }],
      nextMessageId := db.nextMessageId + 1 }

def histAscLe (a b : HistRow) : Bool := a.createdAt ≤ b.createdAt

/-- `crud.get_conversation_history` (crud.py:380-397): the session's rows
ordered by `created_at` ascending with `LIMIT limit` — i.e. the oldest
`limit` rows, not the most recent. -/
def getConversationHistory (db : Database) (sessionId : String) (limit : Nat) : List HistRow :=
  (sortByAsc histAscLe (db.history.filter (fun h => h.sessionId == sessionId))).take limit

/-- Number of `status = "active"` sessions a user owns. -/
def countActiveSessions (db : Database) (userId : String) : Nat :=
  (db.sessions.filter (fun s => s.userId == userId && s.status == "active")).length

/-! ## ConversationContextManager (src/services/conversation_service.py) -/

def SESSION_TIMEOUT_MINUTES : Int := 30

def MAX_CONTEXT_MESSAGES : Nat := 20

/-- `ConversationContextManager.should_create_new_session`
(conversation_service.py:297-362): true with no active session or no
`last_active` timestamp; otherwise expired exactly when the elapsed time
strictly exceeds the 30-minute timeout (`time_since_last > timeout_delta`). -/
def shouldCreateNewSession (db : Database) (userId : String) (now : Int) : Bool :=
  match getActiveSessionForUser db userId with
  | none => true
  | some s =>
      match s.lastActive with
      | none => true
      | some la => decide (SESSION_TIMEOUT_MINUTES * 60 < now - la)

/-- The dictionary shape `get_conversation_context` builds per message
(conversation_service.py:285-293); `created_at.isoformat()` is kept as
the underlying timestamp. -/
structure ContextMsg where
  id : Nat
  role : String
  content : String
  intent : Option String
  confidence : Option ℚ
  createdAt : Int
deriving DecidableEq

def toContextMsg (m : HistRow) : ContextMsg :=
  { id := m.id, role := m.role, content := m.message, intent := m.intent,
    confidence := m.confidence, createdAt := m.createdAt }

/-- `ConversationContextManager.get_conversation_context`
(conversation_service.py:272-295) around the outcome of the awaited
history lookup: the body has no try/except, so a lookup failure
propagates to the caller; a successful lookup is mapped row by row. -/
def getConversationContext (histResult : Except String (List HistRow)) :
    Except String (List ContextMsg) :=
  match histResult with
  | Except.error e => Except.error e
  | Except.ok msgs => Except.ok (msgs.map toContextMsg)

/-- `get_conversation_context` on a reachable database:
`max_messages or self.max_context_messages` then the crud query. -/
def getConversationContextDb (db : Database) (sessionId : String)
    (maxMessages : Option Nat) : List ContextMsg :=
  (getConversationHistory db sessionId (maxMessages.getD MAX_CONTEXT_MESSAGES)).map toContextMsg

/-- Modelled from the spec: "returns the most recent `max_messages`,
oldest first" — the ascending session history with all but the last
`n` rows dropped. Stated only to compare with the behaviour of the code. -/
def specMostRecentOldestFirst (db : Database) (sessionId : String) (n : Nat) : List HistRow :=
  let sorted := sortByAsc histAscLe (db.history.filter (fun h => h.sessionId == sessionId))
  sorted.drop (sorted.length - n)

def sessionPointerKey (userId : String) : String := "session:active:" ++ userId

def sessionMessagesKey (sessionId : String) : String := "session:messages:" ++ sessionId

/-- Outcome of one `add_message` call: the two stores afterwards, whether
the durable history write and the fast-store message-cache write happened,
and the exception surfaced to the caller, if any. -/
structure AddMessageOutcome where
  redis : RedisState
  db : Database
  durableWrite : Bool
  cacheWrite : Bool
  raised : Option String
deriving DecidableEq

/-- The message-cache refresh inside `add_message`
(conversation_service.py:217-240): read the cached list, append the new
entry (db id not yet known), trim to the last `max_context_messages`,
write back. -/
def updateCachedMessages (rs : RedisState) (msgKey : String) (m : CachedMsg) : RedisState :=
  let r1 := rs.get msgKey
  let cachedMsgs := match r1.1 with
    | some (RVal.msgs l) => l
    | _ => []
  let appended := cachedMsgs ++ [m]
  let trimmed :=
    if MAX_CONTEXT_MESSAGES < appended.length then
      appended.drop (appended.length - MAX_CONTEXT_MESSAGES)
    else appended
  (r1.2.set msgKey (RVal.msgs trimmed) (30 * 60)).2

/-- `ConversationContextManager.add_message` (conversation_service.py:151-251)
outside shutdown: validate the role; read the fast-store pointer and mark
it stale when it does not name `session_id` (the write is *not* aborted —
only the message-cache refresh is conditioned on the pointer); check the
durable session is still active (twice, per the source), deleting the
pointer and skipping everything when it is not; otherwise create the
history row, refresh the message cache only when the pointer agreed,
bump the session activity and re-set the pointer. -/
def addMessage (rs : RedisState) (db : Database) (sessionId userId message role : String)
    (intent : Option String) (confidence : Option ℚ) (now : Int) : AddMessageOutcome :=
  if ¬(role = "user" ∨ role = "assistant") then
    { redis := rs, db := db, durableWrite := false, cacheWrite := false,
      raised := some "ValueError" }
  else
    let redisKey := sessionPointerKey userId
    let msgKey := sessionMessagesKey sessionId
    let r1 := rs.get redisKey
    let redisValid := r1.1 == some (RVal.str sessionId)
    match getConversationSession db sessionId with
    | none =>
        { redis := (r1.2.delete redisKey).2, db := db, durableWrite := false,
          cacheWrite := false, raised := none }
    | some sobj =>
        if sobj.status ≠ "active" then
          { redis := (r1.2.delete redisKey).2, db := db, durableWrite := false,
            cacheWrite := false, raised := none }
        else
          -- second freshness check (lines 196-201): the database has not
          -- changed since the first one, so the session is still active here
          let db1 := createConversationMessage db sessionId userId message role intent confidence now
          let rs2 :=
            if redisValid then
              updateCachedMessages r1.2 msgKey
                { id := none, role := role, content := message, intent := intent,
                  confidence := confidence, createdAt := some now }
            else r1.2
          let db2 := updateSessionActivity db1 sessionId 1 now
          let rs3 := (rs2.set redisKey (RVal.str sessionId) (30 * 60)).2
          { redis := rs3, db := db2, durableWrite := true, cacheWrite := redisValid,
            raised := none }

/-! ## Helper lemmas: stable sort and the LRU minimum -/

theorem insertAsc_perm {α : Type} (le : α → α → Bool) (x : α) (l : List α) :
    (insertAsc le x l).Perm (x :: l) := by
  induction l with
  | nil => simp [insertAsc]
  | cons y ys ih =>
      by_cases h : le x y = true
      · simp [insertAsc, h]
      · simp only [insertAsc, h]
        exact List.Perm.trans (List.Perm.cons y ih) (List.Perm.swap x y ys)

theorem sortByAsc_perm {α : Type} (le : α → α → Bool) (l : List α) :
    (sortByAsc le l).Perm l := by
  induction l with
  | nil => simp [sortByAsc]
  | cons x xs ih =>
      exact List.Perm.trans (insertAsc_perm le x (sortByAsc le xs)) (List.Perm.cons x ih)

theorem pairwise_insertAsc {α : Type} (le : α → α → Bool)
    (htrans : ∀ a b c, le a b = true → le b c = true → le a c = true)
    (htot : ∀ a b, le a b = true ∨ le b a = true)
    (x : α) (l : List α) (hl : l.Pairwise (fun a b => le a b = true)) :
    (insertAsc le x l).Pairwise (fun a b => le a b = true) := by
  induction l with
  | nil => simp [insertAsc]
  | cons y ys ih =>
      rcases List.pairwise_cons.mp hl with ⟨hy, hys⟩
      by_cases h : le x y = true
      · simp only [insertAsc, h, if_true]
        refine List.pairwise_cons.mpr ⟨?_, hl⟩
        intro b hb
        rcases List.mem_cons.mp hb with rfl | hb
        · exact h
        · exact htrans x y b h (hy b hb)
      · simp only [insertAsc, h, if_false]
        refine List.pairwise_cons.mpr ⟨?_, ih hys⟩
        intro b hb
        have hb' : b ∈ x :: ys := (insertAsc_perm le x ys).mem_iff.mp hb
        rcases List.mem_cons.mp hb' with rfl | hb2
        · rcases htot b y with hxy | hyx
          · exact absurd hxy h
          · exact hyx
        · exact hy b hb2

theorem pairwise_sortByAsc {α : Type} (le : α → α → Bool)
    (htrans : ∀ a b c, le a b = true → le b c = true → le a c = true)
    (htot : ∀ a b, le a b = true ∨ le b a = true) (l : List α) :
    (sortByAsc le l).Pairwise (fun a b => le a b = true) := by
  induction l with
  | nil => simp [sortByAsc]
  | cons x xs ih => exact pairwise_insertAsc le htrans htot x (sortByAsc le xs) ih

theorem pairLe_refl (a : Nat × Int) : pairLe a a := by
  simp [pairLe]

theorem pairLt_true_le {a b : Nat × Int} (h : pairLt a b = true) : pairLe a b := by
  simp only [pairLt, Bool.or_eq_true, Bool.and_eq_true, beq_iff_eq, decide_eq_true_eq] at h
  rcases h with h | ⟨h1, h2⟩
  · exact Or.inl h
  · exact Or.inr ⟨h1, le_of_lt h2⟩

theorem pairLt_false_le {a b : Nat × Int} (h : pairLt a b = false) : pairLe b a := by
  simp only [pairLt, Bool.or_eq_false_iff, Bool.and_eq_false_iff] at h
  simp only [pairLe]
  rcases h with ⟨h1, h2⟩
  have h1' : ¬ a.1 < b.1 := by simpa using h1
  rcases h2 with h2 | h2
  · have : a.1 ≠ b.1 := by simpa using h2
    omega
  · have h2' : ¬ a.2 < b.2 := by simpa using h2
    by_cases he : a.1 = b.1
    · exact Or.inr ⟨he.symm, by omega⟩
    · exact Or.inl (by omega)

theorem pairLe_trans {a b c : Nat × Int} (h1 : pairLe a b) (h2 : pairLe b c) : pairLe a c := by
  simp only [pairLe] at h1 h2 ⊢
  rcases h1 with h1 | ⟨h1a, h1b⟩ <;> rcases h2 with h2 | ⟨h2a, h2b⟩
  · exact Or.inl (lt_trans h1 h2)
  · exact Or.inl (h2a ▸ h1)
  · exact Or.inl (h1a ▸ h2)
  · exact Or.inr ⟨h1a.trans h2a, le_trans h1b h2b⟩

theorem minLruKey_spec (p : String × CacheEntry) (ps : List (String × CacheEntry)) :
    ∃ e, (minLruKey p ps, e) ∈ p :: ps ∧
      ∀ q ∈ p :: ps, pairLe (entryPair e) (entryPair q.2) := by
  induction ps generalizing p with
  | nil =>
      refine ⟨p.2, ?_, ?_⟩
      · simp [minLruKey]
      · intro q hq
        rcases List.mem_cons.mp hq with rfl | h
        · exact pairLe_refl _
        · cases h
  | cons q qs ih =>
      by_cases h : pairLt (entryPair q.2) (entryPair p.2) = true
      · obtain ⟨e, hmem, hmin⟩ := ih q
        have hkey : minLruKey p (q :: qs) = minLruKey q qs := by
          simp [minLruKey, h]
        refine ⟨e, ?_, ?_⟩
        · rw [hkey]
          exact List.mem_cons_of_mem p hmem
        · intro r hr
          rcases List.mem_cons.mp hr with h1 | hr
          · rw [h1]
            exact pairLe_trans (hmin q (List.mem_cons_self q qs)) (pairLt_true_le h)
          · exact hmin r hr
      · have hf : pairLt (entryPair q.2) (entryPair p.2) = false := by simpa using h
        obtain ⟨e, hmem, hmin⟩ := ih p
        have hkey : minLruKey p (q :: qs) = minLruKey p qs := by
          simp [minLruKey, h]
        refine ⟨e, ?_, ?_⟩
        · rw [hkey]
          rcases List.mem_cons.mp hmem with h1 | h1
          · rw [h1]
            exact List.mem_cons_self _ _
          · exact List.mem_cons_of_mem p (List.mem_cons_of_mem q h1)
        · intro r hr
          rcases List.mem_cons.mp hr with h1 | hr
          · rw [h1]
            exact hmin p (List.mem_cons_self p qs)
          · rcases List.mem_cons.mp hr with h2 | hr2
            · rw [h2]
              exact pairLe_trans (hmin p (List.mem_cons_self p qs)) (pairLt_false_le hf)
            · exact hmin r (List.mem_cons_of_mem p hr2)

/-! ## Operation-level helper lemmas for the Redis client -/

theorem get_fst_healthy (st : RedisState) (k : String)
    (hen : st.enabled = true) (hh : st.healthy = true) :
    (st.get k).1 = dictGet st.store k := by
  cases hg : dictGet st.store k <;> simp [RedisState.get, hen, hh, hg]

theorem retryFailures_failures (st : RedisState) (n : Nat) :
    (retryFailures st n).consecutiveFailures = st.consecutiveFailures + n := by
  induction n generalizing st with
  | zero => simp [retryFailures]
  | succ n ih =>
      simp only [retryFailures]
      rw [ih]
      simp
      omega

theorem retryFailures_alerts_high (st : RedisState) (n : Nat)
    (h : REDIS_ALERT_THRESHOLD ≤ st.consecutiveFailures + 1) :
    (retryFailures st n).criticalAlerts = st.criticalAlerts + n := by
  induction n generalizing st with
  | zero => simp [retryFailures]
  | succ n ih =>
      simp only [retryFailures, if_pos h]
      rw [ih]
      · simp
        omega
      · simp only [REDIS_ALERT_THRESHOLD] at h ⊢
        simp
        omega

theorem retryFailures_alerts_low (st : RedisState) (n : Nat)
    (h : st.consecutiveFailures + n < REDIS_ALERT_THRESHOLD) :
    (retryFailures st n).criticalAlerts = st.criticalAlerts := by
  induction n generalizing st with
  | zero => simp [retryFailures]
  | succ n ih =>
      have hlt : ¬ REDIS_ALERT_THRESHOLD ≤ st.consecutiveFailures + 1 := by
        simp only [REDIS_ALERT_THRESHOLD] at h ⊢
        omega
      simp only [retryFailures, if_neg hlt]
      exact ih _ (by
        simp only [REDIS_ALERT_THRESHOLD] at h
        show st.consecutiveFailures + 1 + n < REDIS_ALERT_THRESHOLD
        simp only [REDIS_ALERT_THRESHOLD]
        omega)

/-! ## Concrete scenario states -/

/-- Durable store before the session race: no sessions at all. -/
def raceDb0 : Database := { sessions := [], history := [], nextMessageId := 1 }

/-- After the first interleaved caller's insert. -/
def raceDb1 : Database := createConversationSession raceDb0 "u1" "s1" 0

/-- After the second interleaved caller's insert. -/
def raceDb2 : Database := createConversationSession raceDb1 "u1" "s2" 0

/-- A fast store whose pointer for `u1` names session `s2`. -/
def staleRedis : RedisState :=
  { store := [(sessionPointerKey "u1", RVal.str "s2")],
    enabled := true, healthy := true, consecutiveFailures := 0, criticalAlerts := 0 }

/-- A durable store in which `s1` is active for `u1`. -/
def staleDb : Database :=
  { sessions := [newSessionRec "u1" "s1" 0], history := [], nextMessageId := 1 }

/-- A session with three messages, timestamps 1, 2, 3. -/
def ctxDb : Database :=
  { sessions := [newSessionRec "u1" "s1" 0],
    history :=
      [{ id := 1, sessionId := "s1", userId := "u1", message := "m1", role := "user",
         intent := none, confidence := none, createdAt := 1 },
       { id := 2, sessionId := "s1", userId := "u1", message := "m2", role := "assistant",
         intent := none, confidence := none, createdAt := 2 },
       { id := 3, sessionId := "s1", userId := "u1", message := "m3", role := "user",
         intent := none, confidence := none, createdAt := 3 }],
    nextMessageId := 4 }

/-- An active session whose `last_active` is time 0. -/
def expiryDb : Database :=
  { sessions := [newSessionRec "u1" "s1" 0], history := [], nextMessageId := 1 }

/-- A healthy, reachable fast store with three consecutive failures on
record and no key `k`. -/
def counterRedis : RedisState :=
  { store := [], enabled := true, healthy := true,
    consecutiveFailures := 3, criticalAlerts := 0 }

/-! ## C1 — at most one active session per user -/

/-- C1: the claim that completed `get_or_create_session(u)` operations
leave at most one `status = "active"` row per user, arbitrated by a
durable uniqueness constraint, fails on this schema: `conversation_sessions`
(models.py:38-48) declares no uniqueness over `(user_id, status)`, so when
two interleaved callers both run `get_active_session_for_user` (both see
no active session) before either runs `create_conversation_session`, both
inserts satisfy every declared constraint and commit, leaving two active
sessions with different identifiers for `u1` — the `IntegrityError`
arbiter of conversation_service.py:127-144 can never fire. -/
theorem session_uniqueness_race_codebug :
    getActiveSessionForUser raceDb0 "u1" = none
    ∧ sessionInsertViolatesSchema raceDb0 (newSessionRec "u1" "s1" 0) = false
    ∧ sessionInsertViolatesSchema raceDb1 (newSessionRec "u1" "s2" 0) = false
    ∧ countActiveSessions raceDb2 "u1" = 2
    ∧ (newSessionRec "u1" "s1" 0).id ≠ (newSessionRec "u1" "s2" 0).id := by
  decide

/-! ## C2 — deduplication round trip -/

/-- C2: over a reachable fast store, `acquire(M)` (the `set_if_not_exists`
of discord_bot.py:167) succeeds exactly when no claim for M is present;
of two acquires for the same M before any release the first returns true
and the second false; and after `release(M)` (the delete of line 190) a
fresh acquire returns true again. -/
theorem dedup_claim_round_trip (st : RedisState) (m : String)
    (hen : st.enabled = true) (hh : st.healthy = true) :
    ((dedupAcquire st m).1 = true ↔ dictGet st.store (dedupKey m) = none)
    ∧ (dictGet st.store (dedupKey m) = none →
        (dedupAcquire st m).1 = true
        ∧ (dedupAcquire (dedupAcquire st m).2 m).1 = false)
    ∧ (dedupAcquire (dedupRelease st m).2 m).1 = true := by
  refine ⟨?_, ?_, ?_⟩
  · cases hg : dictGet st.store (dedupKey m) with
    | none => simp [dedupAcquire, RedisState.setIfNotExists, hen, hh, hg]
    | some v => simp [dedupAcquire, RedisState.setIfNotExists, hen, hh, hg]
  · intro hnone
    refine ⟨by simp [dedupAcquire, RedisState.setIfNotExists, hen, hh, hnone], ?_⟩
    have hst2 : (dedupAcquire st m).2 =
        { st with store := dictSet st.store (dedupKey m) (RVal.str "1"),
                  consecutiveFailures := 0 } := by
      simp [dedupAcquire, RedisState.setIfNotExists, hen, hh, hnone]
    rw [hst2]
    simp [dedupAcquire, RedisState.setIfNotExists, hen, hh, dictGet_dictSet_self]
  · have hrel : (dedupRelease st m).2 =
        { st with store := dictErase st.store (dedupKey m), consecutiveFailures := 0 } := by
      simp [dedupRelease, RedisState.delete, hen, hh]
    rw [hrel]
    simp [dedupAcquire, RedisState.setIfNotExists, hen, hh, dictGet_dictErase_self]

/-- A reachable fast store with no claims. -/
def dedupRedis : RedisState :=
  { store := [], enabled := true, healthy := true,
    consecutiveFailures := 0, criticalAlerts := 0 }

theorem dedup_claim_round_trip_witness :
    dedupRedis.enabled = true ∧ dedupRedis.healthy = true
    ∧ (((dedupAcquire dedupRedis "42").1 = true
          ↔ dictGet dedupRedis.store (dedupKey "42") = none)
       ∧ (dictGet dedupRedis.store (dedupKey "42") = none →
            (dedupAcquire dedupRedis "42").1 = true
            ∧ (dedupAcquire (dedupAcquire dedupRedis "42").2 "42").1 = false)
       ∧ (dedupAcquire (dedupRelease dedupRedis "42").2 "42").1 = true) :=
  ⟨rfl, rfl, dedup_claim_round_trip dedupRedis "42" rfl rfl⟩

/-! ## C6 — fail-open cache defaults -/

/-- C6: with the fast store disabled or all retry attempts exhausted,
`get` reports the key absent, `set` and `delete` report success, and
`set_if_not_exists` reports the claim granted; each operation is a total
function of the state, so nothing is raised to the caller. -/
theorem redis_fail_open_defaults (st : RedisState) (k : String) (v : RVal)
    (h : st.enabled = false ∨ st.healthy = false) :
    (st.get k).1 = none ∧ (st.set k v).1 = true ∧ (st.delete k).1 = true
      ∧ (st.setIfNotExists k v).1 = true := by
  rcases h with h | h
  · simp [RedisState.get, RedisState.set, RedisState.delete, RedisState.setIfNotExists, h]
  · cases hE : st.enabled with
    | false =>
        simp [RedisState.get, RedisState.set, RedisState.delete, RedisState.setIfNotExists, hE]
    | true =>
        simp [RedisState.get, RedisState.set, RedisState.delete, RedisState.setIfNotExists,
          hE, h]

/-- An unreachable fast store that even holds the key being asked for. -/
def downRedis : RedisState :=
  { store := [("x", RVal.str "y")], enabled := true, healthy := false,
    consecutiveFailures := 0, criticalAlerts := 0 }

theorem redis_fail_open_defaults_witness :
    (downRedis.enabled = false ∨ downRedis.healthy = false)
    ∧ ((downRedis.get "x").1 = none ∧ (downRedis.set "x" (RVal.str "z")).1 = true
       ∧ (downRedis.delete "x").1 = true
       ∧ (downRedis.setIfNotExists "x" (RVal.str "z")).1 = true) :=
  ⟨Or.inr rfl, redis_fail_open_defaults downRedis "x" (RVal.str "z") (Or.inr rfl)⟩

/-! ## C3 — stale-pointer guard -/

/-- C3 counterexample: with the fast-store pointer for `u1` naming `s2`,
`add_message(s1, u1, ...)` does NOT skip every write — the durable history
row is still created (conversation_service.py:181-209 runs regardless of
the pointer check); only the message-cache refresh is conditioned on it. -/
theorem stale_pointer_counterexample :
    (staleRedis.get (sessionPointerKey "u1")).1 ≠ some (RVal.str "s1")
    ∧ (addMessage staleRedis staleDb "s1" "u1" "hi" "user" none none 5).durableWrite = true
    ∧ (addMessage staleRedis staleDb "s1" "u1" "hi" "user" none none 5).db.history.length = 1
    ∧ (addMessage staleRedis staleDb "s1" "u1" "hi" "user" none none 5).cacheWrite = false
    ∧ (addMessage staleRedis staleDb "s1" "u1" "hi" "user" none none 5).raised = none := by
  decide

/-! ## C4 — context retrieval contract -/

deriving instance DecidableEq for Except

/-- C4 counterexample: with three messages at timestamps 1, 2, 3 and
`max_messages = 2`, the code returns the OLDEST two (ids 1, 2) because
`get_conversation_history` applies `LIMIT` after an ascending sort
(crud.py:386-391), while the claimed behaviour (most recent two, oldest
first) would be ids 2, 3; and a history-lookup failure propagates instead
of yielding an empty sequence, since `get_conversation_context` has no
try/except (conversation_service.py:272-295). -/
theorem conversation_context_counterexample :
    (getConversationContextDb ctxDb "s1" (some 2)).map ContextMsg.id = [1, 2]
    ∧ (specMostRecentOldestFirst ctxDb "s1" 2).map HistRow.id = [2, 3]
    ∧ (getConversationContextDb ctxDb "s1" (some 2)).map ContextMsg.id
        ≠ (specMostRecentOldestFirst ctxDb "s1" 2).map HistRow.id
    ∧ getConversationContext (Except.error "db down") = Except.error "db down"
    ∧ getConversationContext (Except.error "db down") ≠ Except.ok [] := by
  decide

/-! ## C5 — session expiry boundary -/

/-- C5 counterexample: with `last_active = 0` and `now = 1800` — elapsed
time exactly the 30-minute timeout — `should_create_new_session` returns
false, because the code tests `time_since_last > timeout_delta` strictly
(conversation_service.py:345); the claim says this boundary returns true. -/
theorem session_expiry_counterexample :
    (1800 : Int) - 0 = SESSION_TIMEOUT_MINUTES * 60
    ∧ shouldCreateNewSession expiryDb "u1" 1800 = false := by
  decide

/-! ## C7 — failure-counter discipline -/

/-- C7 counterexample: a successful `get` of an absent key does NOT reset
the process-wide consecutive-failure counter — `RedisClient.get` resets
only when the result `is not None` (redis_utils.py:134-135) — and
likewise `exists` returning false leaves it untouched (line 110-111). -/
theorem failure_counter_counterexample :
    (counterRedis.get "k").1 = none
    ∧ (counterRedis.get "k").2.consecutiveFailures = 3
    ∧ (counterRedis.existsKey "k").1 = false
    ∧ (counterRedis.existsKey "k").2.consecutiveFailures = 3
    ∧ (3 : Nat) ≠ 0 := by
  decide

/-! ## C8 — ResponseCache TTL correctness -/

theorem evictLru_ttl (c : ResponseCache) : c.evictLru.ttl = c.ttl := by
  cases hc : c.cache <;> simp [ResponseCache.evictLru, hc]

theorem set_ttl (c : ResponseCache) (now : Int) (msg resp : String) (intent : Option String) :
    (c.set now msg resp intent).ttl = c.ttl := by
  by_cases h : c.maxSize ≤ c.cache.length <;>
    simp [ResponseCache.set, h, evictLru_ttl]

theorem set_cache_get (c : ResponseCache) (now : Int) (msg resp : String)
    (intent : Option String) :
    dictGet (c.set now msg resp intent).cache (generateKey msg intent)
      = some ⟨resp, now, 1⟩ := by
  simp [ResponseCache.set, dictGet_dictSet_self]

/-- C8: an entry stored by `set` at time T is returned by `get` at T + e
for every e strictly below the TTL, and at every time strictly past
T + TTL the same `get` reports it absent and deletes it from the map
(cache_service.py:87-91). -/
theorem response_cache_ttl (c : ResponseCache) (msg resp : String) (intent : Option String)
    (T e t : Int) (he : e < c.ttl) (ht : T + c.ttl < t) :
    ((c.set T msg resp intent).get (T + e) msg intent).1 = some resp
    ∧ ((c.set T msg resp intent).get t msg intent).1 = none
    ∧ dictGet ((c.set T msg resp intent).get t msg intent).2.cache
        (generateKey msg intent) = none := by
  have h1 := set_cache_get c T msg resp intent
  have h2 := set_ttl c T msg resp intent
  refine ⟨?_, ?_, ?_⟩
  · simp only [ResponseCache.get, h1, h2]
    rw [if_neg (by omega)]
  · simp only [ResponseCache.get, h1, h2]
    rw [if_pos (by omega)]
  · simp only [ResponseCache.get, h1, h2]
    rw [if_pos (by omega)]
    exact dictGet_dictErase_self _ _

theorem response_cache_ttl_witness :
    (299 : Int) < ResponseCache.init.ttl
    ∧ (0 : Int) + ResponseCache.init.ttl < 301
    ∧ (((ResponseCache.init.set 0 "hi" "there" none).get ((0 : Int) + 299) "hi" none).1
        = some "there")
    ∧ (((ResponseCache.init.set 0 "hi" "there" none).get 301 "hi" none).1 = none)
    ∧ dictGet ((ResponseCache.init.set 0 "hi" "there" none).get 301 "hi" none).2.cache
        (generateKey "hi" none) = none :=
  ⟨by decide, by decide,
   response_cache_ttl ResponseCache.init "hi" "there" none 0 299 301 (by decide) (by decide)⟩

/-! ## C9 and C10 — ResponseCache eviction -/

theorem evictLru_eq (c : ResponseCache) (p : String × CacheEntry)
    (ps : List (String × CacheEntry)) (hc : c.cache = p :: ps) :
    c.evictLru = { c with cache := dictErase (p :: ps) (minLruKey p ps),
                          evictions := c.evictions + 1 } := by
  simp only [ResponseCache.evictLru, hc]

theorem set_full_eq (c : ResponseCache) (now : Int) (msg resp : String)
    (intent : Option String) (p : String × CacheEntry) (ps : List (String × CacheEntry))
    (hc : c.cache = p :: ps) (hcond : c.maxSize ≤ c.cache.length) :
    c.set now msg resp intent =
      { c with cache := dictSet (dictErase (p :: ps) (minLruKey p ps))
                 (generateKey msg intent) ⟨resp, now, 1⟩,
               evictions := c.evictions + 1 } := by
  simp only [ResponseCache.set, if_pos hcond, evictLru_eq c p ps hc]

/-- Shared eviction characterisation: a `set` against a full map removes
exactly one entry, one with the least `(access_count, timestamp)` pair,
before inserting. -/
theorem set_at_capacity_evicts_min (c : ResponseCache) (now : Int) (msg resp : String)
    (intent : Option String) (hfull : c.cache.length = c.maxSize) (hpos : 0 < c.maxSize)
    (hnodup : (c.cache.map Prod.fst).Nodup) :
    ∃ k ent, (k, ent) ∈ c.cache
      ∧ (∀ q ∈ c.cache, pairLe (entryPair ent) (entryPair q.2))
      ∧ (c.set now msg resp intent).cache
          = dictSet (dictErase c.cache k) (generateKey msg intent) ⟨resp, now, 1⟩
      ∧ (dictErase c.cache k).length + 1 = c.cache.length
      ∧ (c.set now msg resp intent).evictions = c.evictions + 1 := by
  cases hc : c.cache with
  | nil =>
      rw [hc] at hfull
      simp at hfull
      omega
  | cons p ps =>
      obtain ⟨ent, hmem, hmin⟩ := minLruKey_spec p ps
      have hcond : c.maxSize ≤ c.cache.length := le_of_eq hfull.symm
      have hset := set_full_eq c now msg resp intent p ps hc hcond
      refine ⟨minLruKey p ps, ent, hmem, hmin, ?_, ?_, ?_⟩
      · rw [hset]
      · exact length_dictErase_of_mem (p :: ps) (minLruKey p ps) ent hmem (hc ▸ hnodup)
      · rw [hset]

/-- C9: whenever `set` runs with the map at capacity, exactly one entry is
removed before the insert, and the removed key is one carrying the
lexicographically least `(access_count, timestamp)` pair (Python's `min`
with that key function, first minimum on ties — cache_service.py:107-133). -/
theorem response_cache_eviction_policy (c : ResponseCache) (now : Int) (msg resp : String)
    (intent : Option String) (hfull : c.cache.length = c.maxSize) (hpos : 0 < c.maxSize)
    (hnodup : (c.cache.map Prod.fst).Nodup) :
    ∃ k ent, (k, ent) ∈ c.cache
      ∧ (∀ q ∈ c.cache, pairLe (entryPair ent) (entryPair q.2))
      ∧ (c.set now msg resp intent).cache
          = dictSet (dictErase c.cache k) (generateKey msg intent) ⟨resp, now, 1⟩
      ∧ (dictErase c.cache k).length + 1 = c.cache.length
      ∧ (c.set now msg resp intent).evictions = c.evictions + 1 :=
  set_at_capacity_evicts_min c now msg resp intent hfull hpos hnodup

/-- The claim's own scenario: capacity 2 holding `a` at t = 0 with access
count 1 and `b` at t = 1 with access count 5. -/
def evictCache : ResponseCache :=
  { cache := [("a", { response := "ra", timestamp := 0, accessCount := 1 }),
              ("b", { response := "rb", timestamp := 1, accessCount := 5 })],
    ttl := 300, maxSize := 2, hits := 0, misses := 0, evictions := 0 }

theorem response_cache_eviction_policy_witness :
    evictCache.cache.length = evictCache.maxSize
    ∧ 0 < evictCache.maxSize
    ∧ (evictCache.cache.map Prod.fst).Nodup
    ∧ (∃ k ent, (k, ent) ∈ evictCache.cache
        ∧ (∀ q ∈ evictCache.cache, pairLe (entryPair ent) (entryPair q.2))
        ∧ (evictCache.set 2 "c" "rc" none).cache
            = dictSet (dictErase evictCache.cache k) (generateKey "c" none) ⟨"rc", 2, 1⟩
        ∧ (dictErase evictCache.cache k).length + 1 = evictCache.cache.length
        ∧ (evictCache.set 2 "c" "rc" none).evictions = evictCache.evictions + 1)
    ∧ (evictCache.set 2 "c" "rc" none).cache
        = [("b", { response := "rb", timestamp := 1, accessCount := 5 }),
           ("c", { response := "rc", timestamp := 2, accessCount := 1 })] :=
  ⟨by decide, by decide, by decide,
   response_cache_eviction_policy evictCache 2 "c" "rc" none (by decide) (by decide) (by decide),
   by decide⟩

/-- C10: `set` decides eviction by `len(self.cache) >= self.max_size`
before the key is even computed (cache_service.py:108-112), so a `set`
whose key is already present while the map is at capacity still evicts the
minimum-(access_count, timestamp) entry, although the insert itself would
not grow the map. -/
theorem response_cache_overwrite_eviction (c : ResponseCache) (now : Int) (msg resp : String)
    (intent : Option String) (hfull : c.cache.length = c.maxSize) (hpos : 0 < c.maxSize)
    (hnodup : (c.cache.map Prod.fst).Nodup)
    (hpresent : dictGet c.cache (generateKey msg intent) ≠ none) :
    (dictSet c.cache (generateKey msg intent) ⟨resp, now, 1⟩).length = c.cache.length
    ∧ (c.set now msg resp intent).evictions = c.evictions + 1
    ∧ ∃ k ent, (k, ent) ∈ c.cache
        ∧ (∀ q ∈ c.cache, pairLe (entryPair ent) (entryPair q.2))
        ∧ (c.set now msg resp intent).cache
            = dictSet (dictErase c.cache k) (generateKey msg intent) ⟨resp, now, 1⟩ := by
  obtain ⟨k, ent, hmem, hmin, hcache, _, hev⟩ :=
    set_at_capacity_evicts_min c now msg resp intent hfull hpos hnodup
  exact ⟨length_dictSet_of_mem c.cache (generateKey msg intent) ⟨resp, now, 1⟩ hpresent,
    hev, k, ent, hmem, hmin, hcache⟩

/-- Capacity-2 cache used for the overwrite scenario. -/
def overwriteCache : ResponseCache :=
  { cache := [("a", { response := "ra", timestamp := 0, accessCount := 1 }),
              ("b", { response := "rb", timestamp := 1, accessCount := 5 })],
    ttl := 300, maxSize := 2, hits := 0, misses := 0, evictions := 7 }

theorem response_cache_overwrite_eviction_witness :
    overwriteCache.cache.length = overwriteCache.maxSize
    ∧ 0 < overwriteCache.maxSize
    ∧ (overwriteCache.cache.map Prod.fst).Nodup
    ∧ dictGet overwriteCache.cache (generateKey "a" none) ≠ none
    ∧ ((dictSet overwriteCache.cache (generateKey "a" none) ⟨"ra2", 9, 1⟩).length
          = overwriteCache.cache.length
       ∧ (overwriteCache.set 9 "a" "ra2" none).evictions = overwriteCache.evictions + 1
       ∧ ∃ k ent, (k, ent) ∈ overwriteCache.cache
           ∧ (∀ q ∈ overwriteCache.cache, pairLe (entryPair ent) (entryPair q.2))
           ∧ (overwriteCache.set 9 "a" "ra2" none).cache
               = dictSet (dictErase overwriteCache.cache k) (generateKey "a" none) ⟨"ra2", 9, 1⟩) :=
  ⟨by decide, by decide, by decide, by decide,
   response_cache_overwrite_eviction overwriteCache 9 "a" "ra2" none
     (by decide) (by decide) (by decide) (by decide)⟩

/-- C5 amended: expiry is strict — elapsed time exactly the timeout is
NOT expired, one second less is not expired, strictly past the timeout is
expired; no active session, or an active session without a `last_active`
timestamp, always reports true. -/
theorem session_expiry_strict_boundary
    (db dbNone dbUnset : Database) (u : String) (now la : Int) (s su : SessionRec)
    (hs : getActiveSessionForUser db u = some s) (hla : s.lastActive = some la)
    (hn : getActiveSessionForUser dbNone u = none)
    (hsu : getActiveSessionForUser dbUnset u = some su) (hlau : su.lastActive = none) :
    (now - la = SESSION_TIMEOUT_MINUTES * 60 → shouldCreateNewSession db u now = false)
    ∧ (now - la = SESSION_TIMEOUT_MINUTES * 60 - 1 → shouldCreateNewSession db u now = false)
    ∧ (SESSION_TIMEOUT_MINUTES * 60 < now - la → shouldCreateNewSession db u now = true)
    ∧ shouldCreateNewSession dbNone u now = true
    ∧ shouldCreateNewSession dbUnset u now = true := by
  refine ⟨?_, ?_, ?_, ?_, ?_⟩
  · intro h
    simp only [shouldCreateNewSession, hs, hla, decide_eq_false_iff_not]
    simp only [SESSION_TIMEOUT_MINUTES] at h ⊢
    omega
  · intro h
    simp only [shouldCreateNewSession, hs, hla, decide_eq_false_iff_not]
    simp only [SESSION_TIMEOUT_MINUTES] at h ⊢
    omega
  · intro h
    simp only [shouldCreateNewSession, hs, hla, decide_eq_true_eq]
    exact h
  · simp [shouldCreateNewSession, hn]
  · simp [shouldCreateNewSession, hsu, hlau]

/-- A store with no sessions at all. -/
def emptyDb : Database := { sessions := [], history := [], nextMessageId := 1 }

/-- An active session whose `last_active` column is NULL. -/
def unsetRec : SessionRec :=
  { id := "s9", userId := "u1", startedAt := 0, lastActive := none,
    messageCount := 0, status := "active" }

def unsetDb : Database := { sessions := [unsetRec], history := [], nextMessageId := 1 }

theorem session_expiry_strict_boundary_witness :
    getActiveSessionForUser expiryDb "u1" = some (newSessionRec "u1" "s1" 0)
    ∧ (newSessionRec "u1" "s1" 0).lastActive = some 0
    ∧ getActiveSessionForUser emptyDb "u1" = none
    ∧ getActiveSessionForUser unsetDb "u1" = some unsetRec
    ∧ unsetRec.lastActive = none
    ∧ (((1800 : Int) - 0 = SESSION_TIMEOUT_MINUTES * 60 →
          shouldCreateNewSession expiryDb "u1" 1800 = false)
       ∧ ((1800 : Int) - 0 = SESSION_TIMEOUT_MINUTES * 60 - 1 →
          shouldCreateNewSession expiryDb "u1" 1800 = false)
       ∧ (SESSION_TIMEOUT_MINUTES * 60 < (1800 : Int) - 0 →
          shouldCreateNewSession expiryDb "u1" 1800 = true)
       ∧ shouldCreateNewSession emptyDb "u1" 1800 = true
       ∧ shouldCreateNewSession unsetDb "u1" 1800 = true) :=
  ⟨by decide, rfl, by decide, by decide, rfl,
   session_expiry_strict_boundary expiryDb emptyDb unsetDb "u1" 1800 0
     (newSessionRec "u1" "s1" 0) unsetRec (by decide) rfl (by decide) (by decide) rfl⟩

/-- C7 amended: the counter gains exactly one per failed attempt (three
per exhausted call); it is reset to zero precisely when the operation's
final result passes the per-operation check of redis_utils.py — which the
`True`-returning fallbacks of `set`, `delete` and `set_if_not_exists`
also pass, while a successful `get` of an absent key or `exists` over an
absent key fail it and leave the counter unchanged; and every failed
attempt whose incremented count reaches the threshold of 5 emits a
critical-severity log. -/
theorem failure_counter_discipline (st : RedisState) (k : String) (v : RVal)
    (hen : st.enabled = true) :
    (st.healthy = false →
        (st.get k).2.consecutiveFailures = st.consecutiveFailures + REDIS_MAX_RETRIES
        ∧ (st.existsKey k).2.consecutiveFailures = st.consecutiveFailures + REDIS_MAX_RETRIES
        ∧ (st.set k v).2.consecutiveFailures = 0
        ∧ (st.delete k).2.consecutiveFailures = 0
        ∧ (st.setIfNotExists k v).2.consecutiveFailures = 0)
    ∧ (st.healthy = true →
        (dictGet st.store k = none →
            (st.get k).2.consecutiveFailures = st.consecutiveFailures
            ∧ (st.existsKey k).2.consecutiveFailures = st.consecutiveFailures)
        ∧ (dictGet st.store k ≠ none →
            (st.get k).2.consecutiveFailures = 0
            ∧ (st.existsKey k).2.consecutiveFailures = 0)
        ∧ (st.set k v).2.consecutiveFailures = 0)
    ∧ (st.healthy = false → REDIS_ALERT_THRESHOLD ≤ st.consecutiveFailures + 1 →
        (st.get k).2.criticalAlerts = st.criticalAlerts + REDIS_MAX_RETRIES)
    ∧ (st.healthy = false → st.consecutiveFailures + REDIS_MAX_RETRIES < REDIS_ALERT_THRESHOLD →
        (st.get k).2.criticalAlerts = st.criticalAlerts) := by
  refine ⟨?_, ?_, ?_, ?_⟩
  · intro hh
    refine ⟨?_, ?_, ?_, ?_, ?_⟩
    · simp [RedisState.get, hen, hh, retryFailures_failures]
    · simp [RedisState.existsKey, hen, hh, retryFailures_failures]
    · simp [RedisState.set, hen, hh]
    · simp [RedisState.delete, hen, hh]
    · simp [RedisState.setIfNotExists, hen, hh]
  · intro hh
    refine ⟨?_, ?_, ?_⟩
    · intro hnone
      constructor
      · simp [RedisState.get, hen, hh, hnone]
      · simp [RedisState.existsKey, hen, hh, hnone]
    · intro hsome
      cases hv : dictGet st.store k with
      | none => exact absurd hv hsome
      | some v2 =>
          constructor
          · simp [RedisState.get, hen, hh, hv]
          · simp [RedisState.existsKey, hen, hh, hv]
    · simp [RedisState.set, hen, hh]
  · intro hh halert
    have := retryFailures_alerts_high st REDIS_MAX_RETRIES halert
    simp [RedisState.get, hen, hh, this]
  · intro hh hlow
    have := retryFailures_alerts_low st REDIS_MAX_RETRIES hlow
    simp [RedisState.get, hen, hh, this]

/-- An unreachable fast store with four failures already on record, so
each of the three failing attempts of the next call crosses the alert
threshold. -/
def alertRedis : RedisState :=
  { store := [], enabled := true, healthy := false,
    consecutiveFailures := 4, criticalAlerts := 0 }

theorem failure_counter_discipline_witness :
    alertRedis.enabled = true
    ∧ ((alertRedis.healthy = false →
          (alertRedis.get "k").2.consecutiveFailures
              = alertRedis.consecutiveFailures + REDIS_MAX_RETRIES
          ∧ (alertRedis.existsKey "k").2.consecutiveFailures
              = alertRedis.consecutiveFailures + REDIS_MAX_RETRIES
          ∧ (alertRedis.set "k" (RVal.str "v")).2.consecutiveFailures = 0
          ∧ (alertRedis.delete "k").2.consecutiveFailures = 0
          ∧ (alertRedis.setIfNotExists "k" (RVal.str "v")).2.consecutiveFailures = 0)
       ∧ (alertRedis.healthy = true →
          (dictGet alertRedis.store "k" = none →
              (alertRedis.get "k").2.consecutiveFailures = alertRedis.consecutiveFailures
              ∧ (alertRedis.existsKey "k").2.consecutiveFailures
                  = alertRedis.consecutiveFailures)
          ∧ (dictGet alertRedis.store "k" ≠ none →
              (alertRedis.get "k").2.consecutiveFailures = 0
              ∧ (alertRedis.existsKey "k").2.consecutiveFailures = 0)
          ∧ (alertRedis.set "k" (RVal.str "v")).2.consecutiveFailures = 0)
       ∧ (alertRedis.healthy = false →
            REDIS_ALERT_THRESHOLD ≤ alertRedis.consecutiveFailures + 1 →
            (alertRedis.get "k").2.criticalAlerts
                = alertRedis.criticalAlerts + REDIS_MAX_RETRIES)
       ∧ (alertRedis.healthy = false →
            alertRedis.consecutiveFailures + REDIS_MAX_RETRIES < REDIS_ALERT_THRESHOLD →
            (alertRedis.get "k").2.criticalAlerts = alertRedis.criticalAlerts)) :=
  ⟨rfl, failure_counter_discipline alertRedis "k" (RVal.str "v") rfl⟩

/-- C3 amended: when the fast-store pointer for the user names a session
other than `session_id` (and the session is still active durably), the
mismatch is logged and only the fast-store message-cache write is
skipped; the durable history write still happens and the call returns
without raising. -/
theorem stale_pointer_amended (rs : RedisState) (db : Database)
    (sessionId userId message role : String) (intent : Option String)
    (confidence : Option ℚ) (now : Int) (sobj : SessionRec)
    (hrole : role = "user" ∨ role = "assistant")
    (hen : rs.enabled = true) (hh : rs.healthy = true)
    (hptr : dictGet rs.store (sessionPointerKey userId) ≠ some (RVal.str sessionId))
    (hs : getConversationSession db sessionId = some sobj)
    (hact : sobj.status = "active") :
    (addMessage rs db sessionId userId message role intent confidence now).durableWrite = true
    ∧ (addMessage rs db sessionId userId message role intent confidence now).cacheWrite = false
    ∧ (addMessage rs db sessionId userId message role intent confidence now).raised = none
    ∧ (addMessage rs db sessionId userId message role intent confidence now).db.history.length
        = db.history.length + 1 := by
  have hcond : ¬¬(role = "user" ∨ role = "assistant") := not_not_intro hrole
  have hget1 : (rs.get (sessionPointerKey userId)).1
      = dictGet rs.store (sessionPointerKey userId) := get_fst_healthy rs _ hen hh
  have hbeq : ((rs.get (sessionPointerKey userId)).1 == some (RVal.str sessionId)) = false := by
    rw [hget1]
    exact beq_eq_false_iff_ne.mpr hptr
  have hstat : ¬ sobj.status ≠ "active" := not_not_intro hact
  simp only [addMessage, if_neg hcond, hs, hbeq, if_neg hstat, Bool.false_eq_true, if_false]
  refine ⟨trivial, trivial, trivial, ?_⟩
  simp [updateSessionActivity, createConversationMessage]

theorem stale_pointer_amended_witness :
    ("user" = "user" ∨ "user" = "assistant")
    ∧ staleRedis.enabled = true
    ∧ staleRedis.healthy = true
    ∧ dictGet staleRedis.store (sessionPointerKey "u1") ≠ some (RVal.str "s1")
    ∧ getConversationSession staleDb "s1" = some (newSessionRec "u1" "s1" 0)
    ∧ (newSessionRec "u1" "s1" 0).status = "active"
    ∧ ((addMessage staleRedis staleDb "s1" "u1" "hi" "user" none none 5).durableWrite = true
       ∧ (addMessage staleRedis staleDb "s1" "u1" "hi" "user" none none 5).cacheWrite = false
       ∧ (addMessage staleRedis staleDb "s1" "u1" "hi" "user" none none 5).raised = none
       ∧ (addMessage staleRedis staleDb "s1" "u1" "hi" "user" none none 5).db.history.length
           = staleDb.history.length + 1) :=
  ⟨Or.inl rfl, rfl, rfl, by decide, by decide, rfl,
   stale_pointer_amended staleRedis staleDb "s1" "u1" "hi" "user" none none 5
     (newSessionRec "u1" "s1" 0) (Or.inl rfl) rfl rfl (by decide) (by decide) rfl⟩

/-- C4 amended: `get_conversation_context(session_id, max_messages)`
returns the OLDEST `max_messages` messages of the session, ordered oldest
first (ascending `created_at` with the limit applied after the sort), and
a failure of the underlying history lookup propagates to the caller
instead of yielding an empty sequence. -/
theorem conversation_context_oldest_first (db : Database) (sid : String) (n : Nat)
    (e : String) :
    (getConversationContextDb db sid (some n)).map ContextMsg.id
        = ((sortByAsc histAscLe (db.history.filter (fun h => h.sessionId == sid))).take n).map
            HistRow.id
    ∧ (getConversationContextDb db sid (some n)).Pairwise
        (fun a b => a.createdAt ≤ b.createdAt)
    ∧ (∀ x ∈ getConversationHistory db sid n,
        ∀ y ∈ (sortByAsc histAscLe (db.history.filter (fun h => h.sessionId == sid))).drop n,
          x.createdAt ≤ y.createdAt)
    ∧ getConversationContext (Except.error e) = Except.error e := by
  have htrans : ∀ a b c : HistRow,
      histAscLe a b = true → histAscLe b c = true → histAscLe a c = true := by
    intro a b c hab hbc
    simp only [histAscLe, decide_eq_true_eq] at hab hbc ⊢
    omega
  have htot : ∀ a b : HistRow, histAscLe a b = true ∨ histAscLe b a = true := by
    intro a b
    simp only [histAscLe, decide_eq_true_eq]
    omega
  have hsorted := pairwise_sortByAsc histAscLe htrans htot
      (db.history.filter (fun h => h.sessionId == sid))
  refine ⟨?_, ?_, ?_, rfl⟩
  · simp [getConversationContextDb, getConversationHistory, List.map_map]
    rfl
  · have htake : ((sortByAsc histAscLe
        (db.history.filter (fun h => h.sessionId == sid))).take n).Pairwise
          (fun a b => histAscLe a b = true) :=
      hsorted.sublist (List.take_sublist n _)
    have hform : getConversationContextDb db sid (some n)
        = ((sortByAsc histAscLe
            (db.history.filter (fun h => h.sessionId == sid))).take n).map toContextMsg := rfl
    rw [hform]
    refine List.pairwise_map.mpr (htake.imp ?_)
    intro a b hab
    simpa [histAscLe, toContextMsg] using hab
  · intro x hx y hy
    have hx' : x ∈ (sortByAsc histAscLe
        (db.history.filter (fun h => h.sessionId == sid))).take n := hx
    have hsplit := List.take_append_drop n
      (sortByAsc histAscLe (db.history.filter (fun h => h.sessionId == sid)))
    rw [← hsplit] at hsorted
    obtain ⟨-, -, hcross⟩ := List.pairwise_append.mp hsorted
    have hxy := hcross x hx' y hy
    simpa [histAscLe, decide_eq_true_eq] using hxy

theorem conversation_context_oldest_first_witness :
    (getConversationContextDb ctxDb "s1" (some 2)).map ContextMsg.id
        = ((sortByAsc histAscLe (ctxDb.history.filter (fun h => h.sessionId == "s1"))).take 2).map
            HistRow.id
    ∧ (getConversationContextDb ctxDb "s1" (some 2)).Pairwise
        (fun a b => a.createdAt ≤ b.createdAt)
    ∧ (∀ x ∈ getConversationHistory ctxDb "s1" 2,
        ∀ y ∈ (sortByAsc histAscLe (ctxDb.history.filter (fun h => h.sessionId == "s1"))).drop 2,
          x.createdAt ≤ y.createdAt)
    ∧ getConversationContext (Except.error "boom") = Except.error "boom" :=
  conversation_context_oldest_first ctxDb "s1" 2 "boom"

end DiscordAI
